import Mathlib

/-!
Shallow embedding of `src/inventory.py`, a single-session inventory tracker.

Modelling conventions:
* A Python dict (insertion-ordered, unique keys) is an association list
  `List (String × _)`; the representation invariant "keys are distinct" is
  stated explicitly where a claim needs it.
* `input(...)` values are explicit arguments.  `int(...)` / `float(...)`
  applied to an input are modelled by passing the parse result as
  `Option Int` / `Option Rat`: `none` is the `ValueError` case that the
  surrounding `try/except` catches.  Python floats are modelled as `Rat`.
* Python `str.strip()` is modelled by `pyStrip`: drop leading and
  trailing whitespace characters.
* Side effects of one menu operation are collected in an `Effects` record:
  the resulting in-memory inventory, the argument of the `save_inventory`
  call if one happened (`none` = no persistence write), the list of action
  texts passed to `log_staff_action`, and the lines printed.
* The file system for `inventory.json` is `Option Json` (`none` = the file
  does not exist); `json.dump`/`json.load` serialisation between the tree
  and raw text is the Python standard library and is modelled as the
  identity on the tree.
* `staff_log.txt` is a list of its lines.
* `datetime.now()` is an explicit timestamp argument.
-/

/-- Python `s.strip()`: remove leading and trailing whitespace. -/
def pyStrip (s : String) : String :=
  ⟨((s.data.dropWhile Char.isWhitespace).reverse.dropWhile Char.isWhitespace).reverse⟩

/-- A product record, the value stored under a product ID in the
`inventory` dict: `{"name": ..., "quantity": ..., "price": ...}`. -/
structure Product where
  name : String
  quantity : Int
  price : Rat
deriving DecidableEq

/-- The in-memory inventory: a Python dict from product ID to product,
as an insertion-ordered association list. -/
abbrev Catalog := List (String × Product)

/-- Python `pid in self.inventory` (dict key membership). -/
def containsKey (inv : Catalog) (pid : String) : Bool :=
  inv.any (fun e => e.1 == pid)

/-- Python `self.inventory[pid]` lookup (first — and, for a dict, only —
entry with this key). -/
def lookupKey (inv : Catalog) (pid : String) : Option Product :=
  match inv with
  | [] => none
  | (k, v) :: rest => if k = pid then some v else lookupKey rest pid

/-- Python `del self.inventory[pid]`: remove the (unique) entry with this
key, keeping the order of the others. -/
def removeKey (inv : Catalog) (pid : String) : Catalog :=
  match inv with
  | [] => []
  | (k, v) :: rest => if k = pid then rest else (k, v) :: removeKey rest pid

/-- Python `self.inventory[pid]["quantity"] = quantity`: mutate the
quantity field of the entry with this key, in place. -/
def setQuantity (inv : Catalog) (pid : String) (q : Int) : Catalog :=
  match inv with
  | [] => []
  | (k, v) :: rest =>
    if k = pid then (k, { v with quantity := q }) :: rest
    else (k, v) :: setQuantity rest pid q

/-- The observable side effects of one menu operation. -/
structure Effects where
  inventory : Catalog
  saved : Option Catalog
  audit : List String
  msgs : List String
deriving DecidableEq

/-- `log_staff_action(action)` (src/inventory.py:36-41): append one line
`f"{datetime.now()} - {action}"` to `staff_log.txt`. -/
def log_staff_action (ts action : String) (log : List String) : List String :=
  log ++ [ts ++ " - " ++ action]

/-- Replay the `log_staff_action` calls of an operation onto the log file. -/
def applyAudit (ts : String) (e : Effects) (log : List String) : List String :=
  e.audit.foldl (fun l a => log_staff_action ts a l) log

/-- `Admin.add_product` (src/inventory.py:96-131).  Arguments are the four
prompted inputs; `quantity`/`price` are the `int(...)`/`float(...)` parse
results (`none` = `ValueError`, caught by the `except` branch). -/
def add_product (inv : Catalog) (pidInput nameInput : String)
    (quantity : Option Int) (price : Option Rat) : Effects :=
  let pid := pyStrip pidInput
  if pid = "" then
    ⟨inv, none, [], ["⚠ Product ID cannot be empty!"]⟩
  else if containsKey inv pid then
    ⟨inv, none, [], ["⚠ Product ID already exists!"]⟩
  else
    match quantity, price with
    | some q, some pr =>
      if q < 0 ∨ pr < 0 then
        ⟨inv, none, [], ["⚠ Quantity and Price cannot be negative!"]⟩
      else
        let inv2 := inv ++ [(pid, ⟨pyStrip nameInput, q, pr⟩)]
        ⟨inv2, some inv2, [], ["✅ Product Added Successfully!"]⟩
    | _, _ =>
      ⟨inv, none, [], ["⚠ Quantity must be integer and price must be number!"]⟩

/-- `Admin.delete_product` (src/inventory.py:134-146). -/
def delete_product (inv : Catalog) (pidInput : String) : Effects :=
  let pid := pyStrip pidInput
  if containsKey inv pid then
    let inv2 := removeKey inv pid
    ⟨inv2, some inv2, [], ["🗑 Product Deleted Successfully!"]⟩
  else
    ⟨inv, none, [], ["❌ Product ID not found!"]⟩

/-- `Admin.update_stock` (src/inventory.py:179-201).  `quantity` is the
`int(...)` parse result of the prompted new quantity. -/
def Admin.update_stock (inv : Catalog) (pidInput : String)
    (quantity : Option Int) : Effects :=
  let pid := pyStrip pidInput
  if containsKey inv pid then
    match quantity with
    | none => ⟨inv, none, [], ["⚠ Quantity must be a valid number!"]⟩
    | some q =>
      if q < 0 then
        ⟨inv, none, [], ["⚠ Quantity cannot be negative!"]⟩
      else
        let inv2 := setQuantity inv pid q
        ⟨inv2, some inv2, [], ["✅ Stock Updated!"]⟩
  else
    ⟨inv, none, [], ["❌ Product ID not found!"]⟩

/-- `Staff.update_stock` (src/inventory.py:242-269): same
validation/mutation as the admin variant, plus one `log_staff_action`
call on success. -/
def Staff.update_stock (inv : Catalog) (pidInput : String)
    (quantity : Option Int) : Effects :=
  let pid := pyStrip pidInput
  if containsKey inv pid then
    match quantity with
    | none => ⟨inv, none, [], ["⚠ Quantity must be a valid number!"]⟩
    | some q =>
      if q < 0 then
        ⟨inv, none, [], ["⚠ Quantity cannot be negative!"]⟩
      else
        let inv2 := setQuantity inv pid q
        ⟨inv2, some inv2,
          ["Staff updated stock of Product ID " ++ pid ++ " to " ++ toString q],
          ["✅ Stock Updated!"]⟩
  else
    ⟨inv, none, [], ["❌ Product ID not found!"]⟩

/-- One displayed block of `Admin.view_products` (src/inventory.py:149-176):
the fields printed for one product, plus whether the low-stock alert line
was printed for it. -/
structure ViewLine where
  pid : String
  name : String
  quantity : Int
  price : Rat
  value : Rat
  lowStock : Bool
deriving DecidableEq

/-- The `for pid, details in self.inventory.items()` loop of
`Admin.view_products`, threading the `total_value` accumulator. -/
def viewLoop : Catalog → Rat → List ViewLine × Rat
  | [], total => ([], total)
  | (pid, d) :: rest, total =>
    let value := (d.quantity : Rat) * d.price
    let (lines, t) := viewLoop rest (total + value)
    (⟨pid, d.name, d.quantity, d.price, value, decide (d.quantity < 5)⟩ :: lines, t)

/-- `Admin.view_products` (src/inventory.py:149-176): `none` models the
early `print("Inventory is empty!"); return` on an empty inventory;
otherwise the displayed product blocks in iteration order together with
the reported total inventory value. -/
def view_products (inv : Catalog) : Option (List ViewLine × Rat) :=
  if inv.isEmpty then none
  else some (viewLoop inv 0)

/-- The JSON trees `json.dump` writes for this program: `inventory.json`
always holds an object of objects with string, int and float leaves. -/
inductive Json where
  | jstr (s : String)
  | jint (n : Int)
  | jnum (q : Rat)
  | jobj (fields : List (String × Json))

/-- The JSON object `json.dump` writes for one product dict. -/
def encodeProduct (p : Product) : Json :=
  .jobj [("name", .jstr p.name), ("quantity", .jint p.quantity), ("price", .jnum p.price)]

/-- The JSON object `json.dump` writes for the whole inventory dict. -/
def encodeCatalog (inv : Catalog) : Json :=
  .jobj (inv.map (fun e => (e.1, encodeProduct e.2)))

/-- Read one loaded JSON value back as a product record (the shape the
program stores and indexes by `"name"`/`"quantity"`/`"price"`). -/
def decodeProduct : Json → Option Product
  | .jobj [("name", .jstr n), ("quantity", .jint q), ("price", .jnum pr)] =>
    some ⟨n, q, pr⟩
  | _ => none

/-- Read the fields of a loaded JSON object back as catalog entries. -/
def decodeFields : List (String × Json) → Option Catalog
  | [] => some []
  | (k, v) :: rest =>
    match decodeProduct v, decodeFields rest with
    | some p, some c => some ((k, p) :: c)
    | _, _ => none

/-- Read a loaded JSON value back as a catalog. -/
def decodeCatalog : Json → Option Catalog
  | .jobj fields => decodeFields fields
  | _ => none

/-- `save_inventory(inventory)` (src/inventory.py:28-33): overwrite
`inventory.json` (whatever its previous state) with the whole dict. -/
def save_inventory (inv : Catalog) (_fs : Option Json) : Option Json :=
  some (encodeCatalog inv)

/-- `load_inventory()` (src/inventory.py:16-25): if `inventory.json`
exists return its parsed contents, else return the empty dict `{}`. -/
def load_inventory (fs : Option Json) : Json :=
  match fs with
  | none => .jobj []
  | some j => j

/-- The catalog invariant the code actually enforces: keys (product IDs)
distinct and non-empty, quantity and price non-negative. -/
def CatalogInv (inv : Catalog) : Prop :=
  (inv.map Prod.fst).Nodup ∧
    ∀ e ∈ inv, e.1 ≠ "" ∧ 0 ≤ e.2.quantity ∧ 0 ≤ e.2.price

instance : DecidablePred CatalogInv := fun _ =>
  inferInstanceAs (Decidable (_ ∧ _))

/-- The invariant as the spec states it: `CatalogInv` plus non-empty
product names. -/
def CatalogInvFull (inv : Catalog) : Prop :=
  CatalogInv inv ∧ ∀ e ∈ inv, e.2.name ≠ ""

instance : DecidablePred CatalogInvFull := fun _ =>
  inferInstanceAs (Decidable (_ ∧ _))

/-- The menu operations available in an admin session
(src/inventory.py:294-319); inputs are baked into each constructor. -/
inductive AdminOp where
  | add (pid name : String) (q : Option Int) (p : Option Rat)
  | update (pid : String) (q : Option Int)
  | delete (pid : String)
  | view
  | viewLogs

/-- The mutable state an admin session touches: the in-memory inventory
and the `staff_log.txt` contents. -/
structure SessionState where
  inventory : Catalog
  auditLog : List String
deriving DecidableEq

/-- Run one admin menu command: thread the inventory through the
operation's effects and replay its (absent) `log_staff_action` calls.
`Admin.view_products` and `Admin.view_staff_logs` only read. -/
def runAdminOp (ts : String) (st : SessionState) (op : AdminOp) : SessionState :=
  match op with
  | .add pid name q p =>
    let e := add_product st.inventory pid name q p
    ⟨e.inventory, applyAudit ts e st.auditLog⟩
  | .update pid q =>
    let e := Admin.update_stock st.inventory pid q
    ⟨e.inventory, applyAudit ts e st.auditLog⟩
  | .delete pid =>
    let e := delete_product st.inventory pid
    ⟨e.inventory, applyAudit ts e st.auditLog⟩
  | .view => st
  | .viewLogs => st

/-- An admin session: the command loop over a list of menu commands. -/
def runAdminSession (ts : String) (ops : List AdminOp) (st : SessionState) :
    SessionState :=
  ops.foldl (runAdminOp ts) st

/-! ### Helper lemmas -/

theorem decodeProduct_encodeProduct (p : Product) :
    decodeProduct (encodeProduct p) = some p := rfl

theorem decodeFields_encode (inv : Catalog) :
    decodeFields (inv.map (fun e => (e.1, encodeProduct e.2))) = some inv := by
  induction inv with
  | nil => rfl
  | cons e rest ih => simp [decodeFields, decodeProduct_encodeProduct, ih]

/-- C9: `load_inventory` treats an absent `inventory.json` as the valid
empty state: it returns the empty dict `{}` (the empty catalog) and does
not fail. -/
theorem load_inventory_missing_file :
    load_inventory none = Json.jobj [] ∧ decodeCatalog (load_inventory none) = some [] :=
  ⟨rfl, rfl⟩

/-- C1: for every valid catalog (distinct non-empty IDs, non-negative
quantities and prices) and every prior file state, `save_inventory`
followed by `load_inventory` yields a catalog equal to the original. -/
theorem save_load_roundtrip (inv : Catalog) (fs : Option Json)
    (_hv : CatalogInv inv) :
    decodeCatalog (load_inventory (save_inventory inv fs)) = some inv := by
  simp [save_inventory, load_inventory, decodeCatalog, encodeCatalog, decodeFields_encode]

theorem save_load_roundtrip_witness :
    CatalogInv [("P1", ⟨"Pen", 10, 2⟩)] ∧
      decodeCatalog (load_inventory (save_inventory [("P1", ⟨"Pen", 10, 2⟩)] none)) =
        some [("P1", ⟨"Pen", 10, 2⟩)] :=
  ⟨by decide, save_load_roundtrip [("P1", ⟨"Pen", 10, 2⟩)] none (by decide)⟩

/-- C10: every product-ID input is stripped of surrounding whitespace
before any check or lookup: each of the four operations depends on the
entered ID only through its stripped form, and `add_product` rejects a
whitespace-only ID as empty. -/
theorem product_id_inputs_stripped :
    (∀ inv pid pid' name q p, pyStrip pid = pyStrip pid' →
      add_product inv pid name q p = add_product inv pid' name q p) ∧
    (∀ inv pid pid', pyStrip pid = pyStrip pid' →
      delete_product inv pid = delete_product inv pid') ∧
    (∀ inv pid pid' q, pyStrip pid = pyStrip pid' →
      Admin.update_stock inv pid q = Admin.update_stock inv pid' q) ∧
    (∀ inv pid pid' q, pyStrip pid = pyStrip pid' →
      Staff.update_stock inv pid q = Staff.update_stock inv pid' q) ∧
    (∀ inv pid name q p, pyStrip pid = "" →
      add_product inv pid name q p = ⟨inv, none, [], ["⚠ Product ID cannot be empty!"]⟩) := by
  refine ⟨?_, ?_, ?_, ?_, ?_⟩
  · intro inv pid pid' name q p h; unfold add_product; rw [h]
  · intro inv pid pid' h; unfold delete_product; rw [h]
  · intro inv pid pid' q h; unfold Admin.update_stock; rw [h]
  · intro inv pid pid' q h; unfold Staff.update_stock; rw [h]
  · intro inv pid name q p h; unfold add_product; rw [h]; simp

theorem product_id_inputs_stripped_witness :
    add_product [("P1", ⟨"Pen", 1, 1⟩)] " P1 " "x" (some 1) (some 1) =
      add_product [("P1", ⟨"Pen", 1, 1⟩)] "P1" "x" (some 1) (some 1) ∧
    add_product [] "   " "x" (some 1) (some 1) =
      ⟨[], none, [], ["⚠ Product ID cannot be empty!"]⟩ :=
  ⟨product_id_inputs_stripped.1 _ _ _ _ _ _ (by decide),
   product_id_inputs_stripped.2.2.2.2 _ _ _ _ _ (by decide)⟩

/-- C2: whenever `add_product` fails — stripped ID empty, duplicate ID,
unparsable quantity or price (`ValueError`), or negative quantity or
price — the in-memory catalog is unchanged and no save is performed. -/
theorem add_product_failure_frame (inv : Catalog) (pid name : String)
    (q : Option Int) (p : Option Rat)
    (h : pyStrip pid = "" ∨ containsKey inv (pyStrip pid) = true ∨
      q = none ∨ p = none ∨
      (∃ n, q = some n ∧ n < 0) ∨ (∃ r, p = some r ∧ r < 0)) :
    (add_product inv pid name q p).inventory = inv ∧
      (add_product inv pid name q p).saved = none := by
  unfold add_product
  by_cases h1 : pyStrip pid = ""
  · simp [h1]
  · simp only [h1, if_false]
    by_cases h2 : containsKey inv (pyStrip pid)
    · simp [h2]
    · simp only [h2, if_false]
      match q, p with
      | none, _ => simp
      | some n, none => simp
      | some n, some r =>
        rcases h with h | h | h | h | ⟨n', hn', hneg⟩ | ⟨r', hr', hneg⟩
        · exact absurd h h1
        · exact absurd h (by simp [h2])
        · exact absurd h (by simp)
        · exact absurd h (by simp)
        · have : n < 0 := by cases hn'; exact hneg
          simp [this]
        · have : r < 0 := by cases hr'; exact hneg
          simp [this]

theorem add_product_failure_frame_witness :
    (pyStrip "" = "" ∨ containsKey [] (pyStrip "") = true ∨
      (some 1 : Option Int) = none ∨ (some (-2) : Option Rat) = none ∨
      (∃ n, (some 1 : Option Int) = some n ∧ n < 0) ∨
      (∃ r, (some (-2) : Option Rat) = some r ∧ r < 0)) ∧
    (add_product [] "" "x" (some 1) (some (-2))).inventory = [] ∧
      (add_product [] "" "x" (some 1) (some (-2))).saved = none :=
  ⟨Or.inl (by decide), add_product_failure_frame [] "" "x" (some 1) (some (-2)) (Or.inl (by decide))⟩


theorem containsKey_iff_mem (inv : Catalog) (pid : String) :
    containsKey inv pid = true ↔ pid ∈ inv.map Prod.fst := by
  simp [containsKey, List.any_eq_true]

theorem lookupKey_eq_none_of_not_mem (inv : Catalog) (pid : String)
    (h : pid ∉ inv.map Prod.fst) : lookupKey inv pid = none := by
  induction inv with
  | nil => rfl
  | cons e rest ih =>
    simp only [List.map_cons, List.mem_cons, not_or] at h
    simp only [lookupKey, if_neg (fun hh : e.1 = pid => h.1 hh.symm)]
    exact ih h.2

theorem lookupKey_isSome_of_containsKey (inv : Catalog) (pid : String)
    (h : containsKey inv pid = true) : ∃ v, lookupKey inv pid = some v := by
  induction inv with
  | nil => simp [containsKey] at h
  | cons e rest ih =>
    by_cases hk : e.1 = pid
    · exact ⟨e.2, by simp [lookupKey, hk]⟩
    · have h' : containsKey rest pid = true := by
        simp only [containsKey, List.any_cons, Bool.or_eq_true, beq_iff_eq] at h
        rcases h with h1 | h1
        · exact absurd h1 hk
        · exact h1
      obtain ⟨v, hv⟩ := ih h'
      exact ⟨v, by simp [lookupKey, hk, hv]⟩

theorem lookupKey_setQuantity_ne (inv : Catalog) (pid pid' : String) (q : Int)
    (h : pid' ≠ pid) :
    lookupKey (setQuantity inv pid q) pid' = lookupKey inv pid' := by
  induction inv with
  | nil => rfl
  | cons e rest ih =>
    obtain ⟨k, v⟩ := e
    by_cases hk : k = pid
    · subst hk
      simp [setQuantity, lookupKey, if_neg (fun hh : k = pid' => h hh.symm)]
    · by_cases hk' : k = pid'
      · simp [setQuantity, lookupKey, hk, hk', h]
      · simp [setQuantity, lookupKey, hk, hk', ih]

theorem lookupKey_setQuantity_self (inv : Catalog) (pid : String) (q : Int) :
    lookupKey (setQuantity inv pid q) pid =
      (lookupKey inv pid).map (fun v => { v with quantity := q }) := by
  induction inv with
  | nil => rfl
  | cons e rest ih =>
    obtain ⟨k, v⟩ := e
    by_cases hk : k = pid
    · simp [setQuantity, lookupKey, hk]
    · simp [setQuantity, lookupKey, hk, ih]

theorem map_fst_setQuantity (inv : Catalog) (pid : String) (q : Int) :
    (setQuantity inv pid q).map Prod.fst = inv.map Prod.fst := by
  induction inv with
  | nil => rfl
  | cons e rest ih =>
    obtain ⟨k, v⟩ := e
    by_cases hk : k = pid
    · simp [setQuantity, hk]
    · simp [setQuantity, hk, ih]

theorem lookupKey_removeKey_ne (inv : Catalog) (pid pid' : String)
    (h : pid' ≠ pid) :
    lookupKey (removeKey inv pid) pid' = lookupKey inv pid' := by
  induction inv with
  | nil => rfl
  | cons e rest ih =>
    obtain ⟨k, v⟩ := e
    by_cases hk : k = pid
    · subst hk
      simp [removeKey, lookupKey, if_neg (fun hh : k = pid' => h hh.symm)]
    · by_cases hk' : k = pid'
      · simp [removeKey, lookupKey, hk, hk', h]
      · simp [removeKey, lookupKey, hk, hk', ih]

theorem map_fst_removeKey (inv : Catalog) (pid : String) :
    (removeKey inv pid).map Prod.fst = (inv.map Prod.fst).erase pid := by
  induction inv with
  | nil => rfl
  | cons e rest ih =>
    obtain ⟨k, v⟩ := e
    by_cases hk : k = pid
    · subst hk
      simp [removeKey, List.erase_cons_head]
    · simp [removeKey, hk, List.erase_cons_tail, ih, fun hh : k == pid => hk (by simpa using hh)]

theorem lookupKey_removeKey_self (inv : Catalog) (pid : String)
    (hnd : (inv.map Prod.fst).Nodup) :
    lookupKey (removeKey inv pid) pid = none := by
  apply lookupKey_eq_none_of_not_mem
  rw [map_fst_removeKey]
  exact hnd.not_mem_erase

/-- C3: for both the Admin and the Staff variant, `update_stock` on an
existing ID with a parsed quantity `n ≥ 0` sets exactly the quantity field
of that product (name, price and all other entries unchanged) and persists
the catalog; on an absent ID it reports not-found and leaves the catalog
unchanged with no save. -/
theorem update_stock_contract (inv : Catalog) (pid : String) (q : Option Int) :
    (∀ n, q = some n → 0 ≤ n → containsKey inv (pyStrip pid) = true →
      ∀ r ∈ [Admin.update_stock inv pid q, Staff.update_stock inv pid q],
        r.inventory = setQuantity inv (pyStrip pid) n ∧
        r.saved = some r.inventory ∧
        (∀ old, lookupKey inv (pyStrip pid) = some old →
          lookupKey r.inventory (pyStrip pid) = some ⟨old.name, n, old.price⟩) ∧
        (∀ pid', pid' ≠ pyStrip pid →
          lookupKey r.inventory pid' = lookupKey inv pid')) ∧
    (containsKey inv (pyStrip pid) = false →
      ∀ r ∈ [Admin.update_stock inv pid q, Staff.update_stock inv pid q],
        r.inventory = inv ∧ r.saved = none ∧ r.msgs = ["❌ Product ID not found!"]) := by
  constructor
  · intro n hq hn hc r hr
    subst hq
    have hlt : ¬ n < 0 := not_lt.mpr hn
    simp only [Admin.update_stock, Staff.update_stock, hc, if_true, hlt, if_false,
      List.mem_cons, List.not_mem_nil, or_false] at hr
    rcases hr with rfl | rfl <;>
      exact ⟨rfl, rfl,
        fun old hold => by
          simp [lookupKey_setQuantity_self, hold],
        fun pid' h => lookupKey_setQuantity_ne inv _ pid' n h⟩
  · intro hc r hr
    simp only [Admin.update_stock, Staff.update_stock, hc, Bool.false_eq_true, if_false,
      List.mem_cons, List.not_mem_nil, or_false, or_self] at hr
    subst hr
    exact ⟨rfl, rfl, rfl⟩

theorem update_stock_contract_witness :
    (Admin.update_stock [("P1", ⟨"Pen", 10, 2⟩)] "P1" (some 3)).inventory =
      setQuantity [("P1", ⟨"Pen", 10, 2⟩)] (pyStrip "P1") 3 :=
  ((update_stock_contract [("P1", ⟨"Pen", 10, 2⟩)] "P1" (some 3)).1 3 rfl
    (by decide) (by decide) _ (by simp)).1

/-- C5: `delete_product` on an existing ID removes exactly that entry
(every other entry unchanged) and persists the result; on an absent ID it
reports not-found and leaves the catalog unchanged with no save. -/
theorem delete_product_contract (inv : Catalog) (pid : String)
    (hnd : (inv.map Prod.fst).Nodup) :
    (containsKey inv (pyStrip pid) = true →
      (delete_product inv pid).inventory = removeKey inv (pyStrip pid) ∧
      (delete_product inv pid).saved = some (delete_product inv pid).inventory ∧
      lookupKey (delete_product inv pid).inventory (pyStrip pid) = none ∧
      (∀ pid', pid' ≠ pyStrip pid →
        lookupKey (delete_product inv pid).inventory pid' = lookupKey inv pid')) ∧
    (containsKey inv (pyStrip pid) = false →
      delete_product inv pid = ⟨inv, none, [], ["❌ Product ID not found!"]⟩) := by
  constructor
  · intro hc
    have h1 : delete_product inv pid =
        ⟨removeKey inv (pyStrip pid), some (removeKey inv (pyStrip pid)), [],
          ["🗑 Product Deleted Successfully!"]⟩ := by
      simp [delete_product, hc]
    rw [h1]
    exact ⟨rfl, rfl, lookupKey_removeKey_self inv _ hnd,
      fun pid' h => lookupKey_removeKey_ne inv _ pid' h⟩
  · intro hc
    simp [delete_product, hc]

theorem delete_product_contract_witness :
    delete_product [("P1", ⟨"Pen", 10, 2⟩)] "missing" =
      ⟨[("P1", ⟨"Pen", 10, 2⟩)], none, [], ["❌ Product ID not found!"]⟩ :=
  (delete_product_contract [("P1", ⟨"Pen", 10, 2⟩)] "missing" (by decide)).2 (by decide)

/-- C4: a successful Staff `update_stock` appends exactly one line
`<timestamp> - <action>` to the audit log, whose action text contains the
product ID and the new quantity; every failing Staff `update_stock`
(absent ID, unparsable quantity, negative quantity) appends no line. -/
theorem staff_update_stock_audit (ts : String) (log : List String)
    (inv : Catalog) (pid : String) (q : Option Int) :
    (∀ n, q = some n → 0 ≤ n → containsKey inv (pyStrip pid) = true →
      applyAudit ts (Staff.update_stock inv pid q) log =
        log ++ [ts ++ " - " ++ ("Staff updated stock of Product ID " ++ pyStrip pid
          ++ " to " ++ toString n)]) ∧
    ((containsKey inv (pyStrip pid) = false ∨ q = none ∨ ∃ n, q = some n ∧ n < 0) →
      applyAudit ts (Staff.update_stock inv pid q) log = log) := by
  constructor
  · intro n hq hn hc
    subst hq
    have hlt : ¬ n < 0 := not_lt.mpr hn
    simp [Staff.update_stock, hc, hlt, applyAudit, log_staff_action]
  · rintro (hc | hq | ⟨n, hq, hneg⟩)
    · simp [Staff.update_stock, hc, applyAudit]
    · subst hq
      by_cases hc : containsKey inv (pyStrip pid) = true <;>
        simp [Staff.update_stock, hc, applyAudit]
    · subst hq
      by_cases hc : containsKey inv (pyStrip pid) = true <;>
        simp [Staff.update_stock, hc, hneg, applyAudit]

theorem staff_update_stock_audit_witness :
    applyAudit "T" (Staff.update_stock [("P1", ⟨"Pen", 10, 2⟩)] "P1" (some 3)) [] =
      [] ++ ["T" ++ " - " ++ ("Staff updated stock of Product ID " ++ pyStrip "P1"
        ++ " to " ++ toString (3 : Int))] :=
  (staff_update_stock_audit "T" [] [("P1", ⟨"Pen", 10, 2⟩)] "P1" (some 3)).1 3 rfl
    (by decide) (by decide)

theorem mem_setQuantity (inv : Catalog) (pid : String) (q : Int)
    (e : String × Product) (he : e ∈ setQuantity inv pid q) :
    e ∈ inv ∨ ∃ v, (e.1, v) ∈ inv ∧ e.2 = { v with quantity := q } := by
  induction inv with
  | nil => cases he
  | cons x rest ih =>
    obtain ⟨k, v⟩ := x
    by_cases hk : k = pid
    · simp only [setQuantity, if_pos hk] at he
      rcases List.mem_cons.mp he with rfl | hrest
      · exact Or.inr ⟨v, List.mem_cons_self _ _, rfl⟩
      · exact Or.inl (List.mem_cons_of_mem _ hrest)
    · simp only [setQuantity, if_neg hk] at he
      rcases List.mem_cons.mp he with rfl | hrest
      · exact Or.inl (List.mem_cons_self _ _)
      · rcases ih hrest with h1 | ⟨v', hv', he2⟩
        · exact Or.inl (List.mem_cons_of_mem _ h1)
        · exact Or.inr ⟨v', List.mem_cons_of_mem _ hv', he2⟩

theorem mem_removeKey (inv : Catalog) (pid : String) (e : String × Product)
    (he : e ∈ removeKey inv pid) : e ∈ inv := by
  induction inv with
  | nil => cases he
  | cons x rest ih =>
    obtain ⟨k, v⟩ := x
    by_cases hk : k = pid
    · simp only [removeKey, if_pos hk] at he
      exact List.mem_cons_of_mem _ he
    · simp only [removeKey, if_neg hk] at he
      rcases List.mem_cons.mp he with rfl | hrest
      · exact List.mem_cons_self _ _
      · exact List.mem_cons_of_mem _ (ih hrest)

theorem catalogInv_setQuantity (inv : Catalog) (pid : String) (n : Int)
    (h : CatalogInv inv) (hn : 0 ≤ n) :
    CatalogInv (setQuantity inv pid n) := by
  constructor
  · rw [map_fst_setQuantity]; exact h.1
  · intro e he
    rcases mem_setQuantity inv pid n e he with h1 | ⟨v, hv, he2⟩
    · exact h.2 e h1
    · have hv' := h.2 (e.1, v) hv
      exact ⟨hv'.1, by rw [he2]; exact hn, by rw [he2]; exact hv'.2.2⟩

theorem catalogInv_removeKey (inv : Catalog) (pid : String)
    (h : CatalogInv inv) : CatalogInv (removeKey inv pid) := by
  constructor
  · rw [map_fst_removeKey]; exact h.1.erase pid
  · intro e he
    exact h.2 e (mem_removeKey inv pid e he)

theorem catalogInv_append (inv : Catalog) (pid : String) (p : Product)
    (h : CatalogInv inv) (hni : pid ∉ inv.map Prod.fst) (hpid : pid ≠ "")
    (hq : 0 ≤ p.quantity) (hp : 0 ≤ p.price) :
    CatalogInv (inv ++ [(pid, p)]) := by
  constructor
  · rw [List.map_append]
    refine List.nodup_append.mpr ⟨h.1, List.nodup_singleton _, ?_⟩
    intro a ha hb
    simp only [List.map_cons, List.map_nil, List.mem_singleton] at hb
    subst hb
    exact hni ha
  · intro e he
    rcases List.mem_append.mp he with h1 | h1
    · exact h.2 e h1
    · simp only [List.mem_singleton] at h1
      subst h1
      exact ⟨hpid, hq, hp⟩

/-- C6 counterexample: `add_product` performs no check on the product
name, so a mutation starting from a catalog satisfying the spec's full
invariant (which includes non-empty names) can produce a catalog that
violates it: adding ID "P1" with the empty name succeeds (a save is
performed) and stores a product whose name is `""`. -/
theorem add_product_empty_name_counterexample :
    CatalogInvFull [] ∧
    (add_product [] "P1" "" (some 1) (some 1)).saved.isSome = true ∧
    ¬ CatalogInvFull (add_product [] "P1" "" (some 1) (some 1)).inventory :=
  ⟨by decide, by decide, by decide⟩

/-- C6 (amended): every catalog mutation (`add_product`, both
`update_stock` variants, `delete_product`) preserves the invariant the
code enforces — every quantity ≥ 0, every price ≥ 0, product IDs
non-empty and unique.  (Name non-emptiness is not preserved: see the
counterexample.) -/
theorem mutations_preserve_invariant (inv : Catalog)
    (pid name pid2 pid3 : String) (q q2 : Option Int) (p : Option Rat)
    (h : CatalogInv inv) :
    CatalogInv (add_product inv pid name q p).inventory ∧
    CatalogInv (Admin.update_stock inv pid2 q2).inventory ∧
    CatalogInv (Staff.update_stock inv pid2 q2).inventory ∧
    CatalogInv (delete_product inv pid3).inventory := by
  refine ⟨?_, ?_, ?_, ?_⟩
  · unfold add_product
    by_cases h1 : pyStrip pid = ""
    · simpa [h1] using h
    · rcases q with _ | n
      · by_cases h2 : containsKey inv (pyStrip pid) = true <;> simpa [h1, h2] using h
      · rcases p with _ | r
        · by_cases h2 : containsKey inv (pyStrip pid) = true <;> simpa [h1, h2] using h
        · by_cases h2 : containsKey inv (pyStrip pid) = true
          · simpa [h1, h2] using h
          · by_cases h3 : n < 0 ∨ r < 0
            · simpa [h1, h2, h3] using h
            · push_neg at h3
              have hadd := catalogInv_append inv (pyStrip pid) ⟨pyStrip name, n, r⟩ h
                (fun hm => h2 ((containsKey_iff_mem inv (pyStrip pid)).mpr hm)) h1
                h3.1 h3.2
              simpa [h1, h2, not_or.mpr (⟨not_lt.mpr h3.1, not_lt.mpr h3.2⟩ :
                ¬ n < 0 ∧ ¬ r < 0)] using hadd
  · unfold Admin.update_stock
    by_cases hc : containsKey inv (pyStrip pid2) = true
    · rcases q2 with _ | n
      · simpa [hc] using h
      · by_cases hneg : n < 0
        · simpa [hc, hneg] using h
        · simpa [hc, hneg] using
            catalogInv_setQuantity inv (pyStrip pid2) n h (not_lt.mp hneg)
    · simpa [hc] using h
  · unfold Staff.update_stock
    by_cases hc : containsKey inv (pyStrip pid2) = true
    · rcases q2 with _ | n
      · simpa [hc] using h
      · by_cases hneg : n < 0
        · simpa [hc, hneg] using h
        · simpa [hc, hneg] using
            catalogInv_setQuantity inv (pyStrip pid2) n h (not_lt.mp hneg)
    · simpa [hc] using h
  · unfold delete_product
    by_cases hc : containsKey inv (pyStrip pid3) = true
    · simpa [hc] using catalogInv_removeKey inv (pyStrip pid3) h
    · simpa [hc] using h

theorem mutations_preserve_invariant_witness :
    CatalogInv [("P1", ⟨"Pen", 10, 2⟩)] ∧
    CatalogInv ((add_product [("P1", ⟨"Pen", 10, 2⟩)] "P2" "Pad" (some 1) (some 1)).inventory) :=
  ⟨by decide,
    (mutations_preserve_invariant [("P1", ⟨"Pen", 10, 2⟩)] "P2" "Pad" "P1" "P1"
      (some 1) (some 1) (some 1) (by decide)).1⟩

theorem viewLoop_spec (inv : Catalog) (t : Rat) :
    viewLoop inv t =
      (inv.map (fun e => (⟨e.1, e.2.name, e.2.quantity, e.2.price,
          (e.2.quantity : Rat) * e.2.price, decide (e.2.quantity < 5)⟩ : ViewLine)),
        t + (inv.map (fun e => (e.2.quantity : Rat) * e.2.price)).sum) := by
  induction inv generalizing t with
  | nil => simp [viewLoop]
  | cons e rest ih =>
    obtain ⟨k, d⟩ := e
    simp [viewLoop, ih, add_assoc]

/-- C7 counterexample: on the empty catalog, `view_products` prints
"Inventory is empty!" and returns early, reporting no total inventory
value — while the claim asserts a reported total (= 0) for every
catalog. -/
theorem view_products_empty_counterexample : view_products [] = none := rfl

/-- C7 (amended): for every non-empty catalog, `view_products` produces,
for each entry in catalog (insertion) order, its ID, name, quantity,
price and value = quantity × price, flags low stock exactly when
quantity < 5, and reports a total equal to the sum of quantity × price
over all entries.  (The empty catalog reports an empty-inventory message
and no total — see the counterexample.) -/
theorem view_products_spec (inv : Catalog) (hne : inv ≠ []) :
    view_products inv =
      some (inv.map (fun e => (⟨e.1, e.2.name, e.2.quantity, e.2.price,
              (e.2.quantity : Rat) * e.2.price, decide (e.2.quantity < 5)⟩ : ViewLine)),
            (inv.map (fun e => (e.2.quantity : Rat) * e.2.price)).sum) ∧
    ∀ l ∈ inv.map (fun e => (⟨e.1, e.2.name, e.2.quantity, e.2.price,
            (e.2.quantity : Rat) * e.2.price, decide (e.2.quantity < 5)⟩ : ViewLine)),
      (l.lowStock = true ↔ l.quantity < 5) ∧ l.value = (l.quantity : Rat) * l.price := by
  constructor
  · simp [view_products, List.isEmpty_iff, hne, viewLoop_spec]
  · intro l hl
    rcases List.mem_map.mp hl with ⟨e, _, rfl⟩
    exact ⟨by simp, rfl⟩

theorem view_products_spec_witness :
    view_products [("P1", ⟨"Pen", 10, 2⟩)] =
      some (([("P1", ⟨"Pen", 10, 2⟩)] : Catalog).map (fun e => (⟨e.1, e.2.name,
              e.2.quantity, e.2.price,
              ((e.2.quantity : Rat) * e.2.price), decide (e.2.quantity < 5)⟩ : ViewLine)),
            (([("P1", ⟨"Pen", 10, 2⟩)] : Catalog).map
              (fun e => (e.2.quantity : Rat) * e.2.price)).sum) :=
  (view_products_spec [("P1", ⟨"Pen", 10, 2⟩)] (by simp)).1

theorem add_product_audit_nil (inv : Catalog) (pid name : String)
    (q : Option Int) (p : Option Rat) :
    (add_product inv pid name q p).audit = [] := by
  unfold add_product
  by_cases h1 : pyStrip pid = ""
  · simp [h1]
  · by_cases h2 : containsKey inv (pyStrip pid) = true
    · simp [h1, h2]
    · rcases q with _ | n
      · simp [h1, h2]
      · rcases p with _ | r
        · simp [h1, h2]
        · by_cases h3 : n < 0 ∨ r < 0 <;> simp [h1, h2, h3]

theorem admin_update_stock_audit_nil (inv : Catalog) (pid : String)
    (q : Option Int) : (Admin.update_stock inv pid q).audit = [] := by
  unfold Admin.update_stock
  by_cases hc : containsKey inv (pyStrip pid) = true
  · rcases q with _ | n
    · simp [hc]
    · by_cases hneg : n < 0 <;> simp [hc, hneg]
  · simp [hc]

theorem delete_product_audit_nil (inv : Catalog) (pid : String) :
    (delete_product inv pid).audit = [] := by
  unfold delete_product
  by_cases hc : containsKey inv (pyStrip pid) = true <;> simp [hc]

/-- C8: an admin session never writes the audit log — any sequence of
admin menu operations leaves `staff_log.txt` unchanged — and a Staff
`update_stock` writes it only when it succeeds (existing ID, parsed
quantity ≥ 0). -/
theorem admin_never_audits :
    (∀ ts ops st, (runAdminSession ts ops st).auditLog = st.auditLog) ∧
    (∀ ts log inv pid q, applyAudit ts (Staff.update_stock inv pid q) log ≠ log →
      containsKey inv (pyStrip pid) = true ∧ ∃ n, q = some n ∧ 0 ≤ n) := by
  constructor
  · intro ts ops
    induction ops with
    | nil => intro st; rfl
    | cons op rest ih =>
      intro st
      have hstep : (runAdminOp ts st op).auditLog = st.auditLog := by
        cases op with
        | add pid name q p => simp [runAdminOp, applyAudit, add_product_audit_nil]
        | update pid q => simp [runAdminOp, applyAudit, admin_update_stock_audit_nil]
        | delete pid => simp [runAdminOp, applyAudit, delete_product_audit_nil]
        | view => rfl
        | viewLogs => rfl
      calc (runAdminSession ts (op :: rest) st).auditLog
          = (runAdminSession ts rest (runAdminOp ts st op)).auditLog := rfl
        _ = (runAdminOp ts st op).auditLog := ih _
        _ = st.auditLog := hstep
  · intro ts log inv pid q hne
    by_cases hc : containsKey inv (pyStrip pid) = true
    · rcases q with _ | n
      · exact absurd (by simp [Staff.update_stock, hc, applyAudit]) hne
      · by_cases hneg : n < 0
        · exact absurd (by simp [Staff.update_stock, hc, hneg, applyAudit]) hne
        · exact ⟨hc, n, rfl, not_lt.mp hneg⟩
    · exact absurd (by simp [Staff.update_stock, hc, applyAudit]) hne

theorem admin_never_audits_witness :
    (runAdminSession "T" [AdminOp.add "P1" "Pen" (some 10) (some 2),
        AdminOp.update "P1" (some 3), AdminOp.delete "P1", AdminOp.view,
        AdminOp.viewLogs] ⟨[], ["old line"]⟩).auditLog =
      (⟨[], ["old line"]⟩ : SessionState).auditLog :=
  admin_never_audits.1 "T" _ _
